import Mathlib

/-!
Verification development for the git2jss synchronization engine (sync.py).

The definitions below are a shallow embedding of the functions of sync.py
that the claims talk about: the XML element tree operations used by
JamfObject, the cleanup (normalization) pass, the get and put phases, the
HTTP helper functions get_resource and put_resource, the category fetch,
and the instance-selection logic of main.  Network replies are passed in
as explicit values; Python exceptions are modelled with an Except monad.
Python truthiness of ElementTree elements (an element with no children is
falsy) is modelled explicitly where sync.py relies on it.
-/

/-- Python exceptions that the modelled code can raise:
asyncio TimeoutError (raised by async_timeout on expiry),
AttributeError (attribute access on None), and NameError
(reference to an undefined variable). -/
inductive PyErr where
  | timeoutError
  | attributeError
  | nameError
deriving Repr, DecidableEq

/-- An xml.etree.ElementTree.Element: a tag, optional text, and a list of
child elements (attributes are never used by sync.py and are omitted). -/
inductive XML where
  | elem (tag : String) (text : Option String) (children : List XML)

/-- Tag of an element. -/
def XML.tag : XML → String
  | .elem t _ _ => t

/-- Text of an element (None is modelled as none). -/
def XML.text : XML → Option String
  | .elem _ x _ => x

/-- Child elements of an element. -/
def XML.children : XML → List XML
  | .elem _ _ c => c

/-- Element.find with a single tag: the first direct child with that tag,
or None. -/
def findTag : List XML → String → Option XML
  | [], _ => none
  | c :: cs, tg => if c.tag == tg then some c else findTag cs tg

/-- Element.find on a whole element. -/
def XML.findChild (t : XML) (tg : String) : Option XML :=
  findTag t.children tg

/-- Python falsiness of an optional string: not x is true when x is None
or the empty string. -/
def optBlank : Option String → Bool
  | none => true
  | some s => s == ""

/-- Python truthiness of an ElementTree Element: an element is falsy iff
it has no children (len(element) == 0). -/
def pyTruthyElem (t : XML) : Bool :=
  t.children.length != 0

/-- ET.SubElement(parent, tag) followed by setting its text: appends a new
child at the end of the children list. -/
def appendChild (t : XML) (e : XML) : XML :=
  .elem t.tag t.text (t.children ++ [e])

/-- Set the text of the first child with the given tag (used for
element.find(tag).text = value when the element is known to exist). -/
def setTextFirstL (tg : String) (txt : Option String) : List XML → List XML
  | [] => []
  | c :: cs =>
      if c.tag == tg then XML.elem c.tag txt c.children :: cs
      else c :: setTextFirstL tg txt cs

/-- Set the text of the first direct child with the given tag. -/
def XML.setTextFirst (t : XML) (tg : String) (txt : Option String) : XML :=
  .elem t.tag t.text (setTextFirstL tg txt t.children)

/-- element.remove(element.find(tag)): remove the first direct child with
the given tag; identity when no such child exists (sync.py guards the
removal with an is-not-None check, which this identity case models). -/
def removeFirstL (tg : String) : List XML → List XML
  | [] => []
  | c :: cs => if c.tag == tg then cs else c :: removeFirstL tg cs

/-- Remove the first direct child with the given tag from an element. -/
def XML.removeFirst (t : XML) (tg : String) : XML :=
  .elem t.tag t.text (removeFirstL tg t.children)

/-- Element.clear(): drop text and children, keep the tag. -/
def XML.clearSelf (t : XML) : XML :=
  .elem t.tag none []

/-- Clear the first direct child with the given tag (identity when there
is none, matching the is-not-None guard in sync.py). -/
def clearFirstL (tg : String) : List XML → List XML
  | [] => []
  | c :: cs => if c.tag == tg then c.clearSelf :: cs else c :: clearFirstL tg cs

/-- Does the list contain an element with the given tag. -/
def hasTag : List XML → String → Bool
  | [], _ => false
  | c :: cs, tg => c.tag == tg || hasTag cs tg

/-- Number of direct children with the given tag. -/
def countTag : List XML → String → Nat
  | [], _ => 0
  | c :: cs, tg => (if c.tag == tg then 1 else 0) + countTag cs tg

/-- Element.find with a two-step path such as input_type/script: the first
element in document order reachable by the path (ElementPath backtracks
over the outer-tag children until one contains an inner-tag child). -/
def findP2 (a b : String) : List XML → Option XML
  | [] => none
  | c :: cs =>
      if c.tag == a && hasTag c.children b then findTag c.children b
      else findP2 a b cs

/-- Clear the first element matching a two-step path (identity when the
path matches nothing). -/
def clearP2T (a b : String) : List XML → List XML
  | [] => []
  | c :: cs =>
      if c.tag == a && hasTag c.children b then
        XML.elem c.tag c.text (clearFirstL b c.children) :: cs
      else c :: clearP2T a b cs

/-- Set the text of the first element matching a two-step path. -/
def setTextP2T (a b : String) (txt : Option String) : List XML → List XML
  | [] => []
  | c :: cs =>
      if c.tag == a && hasTag c.children b then
        XML.elem c.tag c.text (setTextFirstL b txt c.children) :: cs
      else c :: setTextP2T a b txt cs

/-- The data_xpath class attribute of a JamfObject subclass: a one-step
path (script_contents, for Script) or a two-step path (input_type/script,
for ExtensionAttribute). -/
inductive XPath where
  | p1 (tg : String)
  | p2 (a b : String)
deriving Repr, DecidableEq

/-- Element.find applied to a data_xpath. -/
def XML.findXPath (t : XML) : XPath → Option XML
  | .p1 tg => findTag t.children tg
  | .p2 a b => findP2 a b t.children

/-- The guarded clear in cleanup_xml: if find(data_xpath) is not None,
clear it; otherwise leave the tree unchanged. -/
def XML.clearXPath (t : XML) : XPath → XML
  | .p1 tg => .elem t.tag t.text (clearFirstL tg t.children)
  | .p2 a b => .elem t.tag t.text (clearP2T a b t.children)

/-- The write in get_data: element.find(data_xpath).text = data.  Returns
none (modelling an AttributeError on None) when the path matches nothing;
the surrounding try in sync.py only catches IndexError, so that error
escapes. -/
def XML.setTextXPath (t : XML) (p : XPath) (txt : Option String) : Option XML :=
  match t.findXPath p with
  | none => none
  | some _ =>
      match p with
      | .p1 tg => some (.elem t.tag t.text (setTextFirstL tg txt t.children))
      | .p2 a b => some (.elem t.tag t.text (setTextP2T a b txt t.children))

/-- The SUPPORTED_EXTENSIONS global of sync.py. -/
def SUPPORTED_EXTENSIONS : List String :=
  [".sh", ".py", ".pl", ".swift", ".rb"]

/-- One file in an artifact folder: its suffix (pathlib.Path.suffix) and
full text content, in directory-listing order. -/
structure SrcFile where
  suffix : String
  content : String
deriving Repr, DecidableEq

/-- The file selection of get_data: the first file in listing order whose
suffix is in SUPPORTED_EXTENSIONS ([...][0], IndexError when empty). -/
def firstSupportedFile (files : List SrcFile) : Option SrcFile :=
  (files.filter (fun f => SUPPORTED_EXTENSIONS.contains f.suffix)).head?

/-- Per-kind configuration: the class attributes of the Script and
ExtensionAttribute subclasses of JamfObject.  removesEncoded records the
extra cleanup step of Script.cleanup_xml (removal of the
script_contents_encoded element). -/
structure Kind where
  class_name : String
  source : String
  filename : String
  resource : String
  data_xpath : XPath
  removesEncoded : Bool

/-- The Script subclass configuration. -/
def ScriptKind : Kind :=
  { class_name := "Script"
    source := "scripts"
    filename := "script"
    resource := "scripts"
    data_xpath := .p1 "script_contents"
    removesEncoded := true }

/-- The ExtensionAttribute subclass configuration. -/
def EAKind : Kind :=
  { class_name := "Extension Attribute"
    source := "extension_attributes"
    filename := "ea"
    resource := "computerextensionattributes"
    data_xpath := .p2 "input_type" "script"
    removesEncoded := false }

/-- JamfObject.resource_url: None when the name attribute is falsy (unset
or empty), otherwise the by-name URL under the JSS base URL. -/
def resource_url (base resource : String) (nm : Option String) : Option String :=
  match nm with
  | none => none
  | some n =>
      if n == "" then none
      else some (base ++ "/JSSResource/" ++ resource ++ "/name/" ++ n)

/-- The new_url attribute set in JamfObject init: the id-0 creation URL. -/
def new_url (base resource : String) : String :=
  base ++ "/JSSResource/" ++ resource ++ "/id/0"

/-- One reply of the JSS to a single HTTP request: either a response with
a status code and a parsed XML body, or expiry of the async_timeout
surrounding the request. -/
inductive NetReply where
  | reply (status : Nat) (body : XML)
  | timeout

/-- The get_resource coroutine (sync.py lines 446 to 478): under the
semaphore and one timeout, issue a GET; if the status is in the accepted
responses tuple return the parsed body, otherwise return None.  A timeout
raises TimeoutError, which get_resource does not catch. -/
def get_resource (r : NetReply) (responses : List Nat) : Except PyErr (Option XML) :=
  match r with
  | .timeout => .error .timeoutError
  | .reply s b => if responses.contains s then .ok (some b) else .ok none

/-- One network operation as observed on the wire, plus semaphore
acquisition and release, for stating what a call issued. -/
inductive NetOp where
  | acquire
  | release
  | getReq (url : String)
  | putReq (url : String) (payload : XML)
  | postReq (url : String) (payload : XML)

/-- The replies the JSS would give to the three possible requests of one
put_resource round: the existence GET on the by-name URL, the PUT on the
by-name URL, and the POST on the id-0 URL. -/
structure PutEnv where
  getReply : NetReply
  putReply : NetReply
  postReply : NetReply

/-- The put_resource coroutine (sync.py lines 481 to 519): acquire the
semaphore once and, under one timeout, GET the by-name url; on status 200
PUT the serialized element to that url, otherwise POST it to new_url; the
status of the final response is returned.  The payload recorded in the
trace is the element itself, ET.tostring being deterministic.  A timeout
anywhere in the round raises TimeoutError. -/
def put_resource (x : XML) (url newUrl : String) (env : PutEnv) :
    Except PyErr (Nat × List NetOp) :=
  match env.getReply with
  | .timeout => .error .timeoutError
  | .reply s _ =>
      if s == 200 then
        match env.putReply with
        | .timeout => .error .timeoutError
        | .reply w _ => .ok (w, [.acquire, .getReq url, .putReq url x, .release])
      else
        match env.postReply with
        | .timeout => .error .timeoutError
        | .reply w _ => .ok (w, [.acquire, .getReq url, .postReq newUrl x, .release])

/-- The name-handling half of JamfObject cleanup (sync.py lines 275 to
285).  When the name element is absent a new one holding the folder name
is appended.  When the name element is present but its text is falsy, the
code first calls LOG.warning with the expression folder.name, and folder
is an undefined variable inside that method, so Python raises NameError
before the assignment on the next line runs. -/
def nameStep (folderName : String) (t : XML) : Except PyErr XML :=
  match t.findChild "name" with
  | none => .ok (appendChild t (.elem "name" (some folderName) []))
  | some n => if optBlank n.text then .error .nameError else .ok t

/-- The category-handling part of JamfObject cleanup (sync.py lines 287
to 297): insert a category element with text None when absent; overwrite
the text with None when it is neither the literal None nor a member of
the CATEGORIES list fetched from the JSS.  CATEGORIES entries are the
text attributes of name elements, hence optional strings. -/
def categoryStep (cats : List (Option String)) (t : XML) : XML :=
  match t.findChild "category" with
  | none => appendChild t (.elem "category" (some "None") [])
  | some c =>
      if c.text != some "None" && !(cats.contains c.text) then
        t.setTextFirst "category" (some "None")
      else t

/-- JamfObject cleanup_xml, the common normalization (sync.py lines 261
to 303): fix the name, fix the category, clear the element at data_xpath,
remove the first id element and the first filename element. -/
def cleanup_xml (folderName : String) (cats : List (Option String))
    (xp : XPath) (t : XML) : Except PyErr XML :=
  match nameStep folderName t with
  | .error e => .error e
  | .ok t1 =>
      .ok ((((categoryStep cats t1).clearXPath xp).removeFirst "id").removeFirst
        "filename")

/-- The per-kind cleanup entry point: the common cleanup, plus the
Script-only removal of the first script_contents_encoded element
(sync.py lines 428 to 443). -/
def Kind.cleanup (k : Kind) (folderName : String) (cats : List (Option String))
    (t : XML) : Except PyErr XML :=
  match cleanup_xml folderName cats k.data_xpath t with
  | .error e => .error e
  | .ok t1 =>
      .ok (if k.removesEncoded then t1.removeFirst "script_contents_encoded" else t1)

/-- JamfObject.get_xml (sync.py lines 232 to 259): infer the name from
the folder, GET the by-name resource accepting only status 200, and fall
back to the kind template when the result is falsy (None, or an element
with no children).  A timeout inside get_resource is not caught here. -/
def get_xml (folderName : String) (remoteReply : NetReply) (template : XML) :
    Except PyErr (Option String × XML) :=
  match get_resource remoteReply [200] with
  | .error e => .error e
  | .ok (some t) =>
      if pyTruthyElem t then .ok (some folderName, t)
      else .ok (some folderName, template)
  | .ok none => .ok (some folderName, template)

/-- The state of a JamfObject after its get phase: the name attribute,
the xml attribute, and the data attribute (None when no supported script
file was found in the folder). -/
structure GetOutcome where
  name : Option String
  xml : XML
  data : Option String

/-- JamfObject.get (sync.py lines 170 to 201) for a freshly constructed
object (xml and data attributes both unset).  With a local metadata file
(localXml some) the tree is parsed and the name attribute is read with
self.xml.find(name).text, which raises AttributeError when the name
element is absent.  Without a local file, get_xml runs.  Then the kind
cleanup runs, and get_data looks for the first supported script file; if
none exists the method logs an error and returns early with the data
attribute still unset; otherwise the content is stored and written into
the tree at data_xpath (AttributeError when that path is absent, since
the try only catches IndexError). -/
def JamfObject_get (k : Kind) (folderName : String) (localXml : Option XML)
    (remoteReply : NetReply) (template : XML) (files : List SrcFile)
    (cats : List (Option String)) : Except PyErr GetOutcome :=
  match
    (match localXml with
     | none => get_xml folderName remoteReply template
     | some t =>
         match t.findChild "name" with
         | none => .error .attributeError
         | some n => .ok (n.text, t)) with
  | .error e => .error e
  | .ok (nm, x) =>
      match k.cleanup folderName cats x with
      | .error e => .error e
      | .ok x1 =>
          match firstSupportedFile files with
          | none => .ok ⟨nm, x1, none⟩
          | some f =>
              match x1.setTextXPath k.data_xpath (some f.content) with
              | none => .error .attributeError
              | some x2 => .ok ⟨nm, x2, some f.content⟩

/-- The retry loop body of JamfObject.put: run put_resource once per
attempt number; a returned status breaks the loop, a TimeoutError is
logged and the loop continues.  Returns the final value of the
put_response variable, the number of attempts actually made, and the
network operations of the round that completed. -/
def putLoop (x : XML) (url newUrl : String) (envs : Nat → PutEnv) :
    List Nat → Option Nat × Nat × List NetOp
  | [] => (none, 0, [])
  | a :: rest =>
      match put_resource x url newUrl (envs a) with
      | .ok (s, ops) => (some s, 1, ops)
      | .error _ =>
          let r := putLoop x url newUrl envs rest
          (r.1, r.2.1 + 1, r.2.2)

/-- JamfObject.put (sync.py lines 203 to 230): iterate attempt over
range(1, RE_TRIES), retrying only on TimeoutError, then report True iff
the final put_response is 201 or 200 (an unset put_response, left None
after every attempt timed out, compares unequal and yields False). -/
def JamfObject_put (x : XML) (url newUrl : String) (envs : Nat → PutEnv)
    (reTries : Nat) : Bool × Nat × List NetOp :=
  let r := putLoop x url newUrl envs (List.range' 1 (reTries - 1))
  ((r.1 == some 201 || r.1 == some 200), r.2)

/-- One instance as driven by main (sync.py lines 783 to 791): the get
phase runs first; if it raises, asyncio.gather propagates the exception
and the run dies.  Otherwise the put phase runs unconditionally for the
instance, whether or not a script file was found. -/
def processItem (k : Kind) (base folderName : String) (localXml : Option XML)
    (remoteReply : NetReply) (template : XML) (files : List SrcFile)
    (cats : List (Option String)) (envs : Nat → PutEnv) (reTries : Nat) :
    Except PyErr (GetOutcome × (Bool × Nat × List NetOp)) :=
  match JamfObject_get k folderName localXml remoteReply template files cats with
  | .error e => .error e
  | .ok st =>
      .ok (st, JamfObject_put st.xml
        ((resource_url base k.resource st.name).getD "")
        (new_url base k.resource) envs reTries)

/-- The list comprehension inside get_existing_categories: for every
direct category child of the fetched document, read find(name).text;
AttributeError when a category entry has no name child. -/
def categoryNames : List XML → Except PyErr (List (Option String))
  | [] => .ok []
  | c :: cs =>
      match c.findChild "name" with
      | none => .error .attributeError
      | some n =>
          match categoryNames cs with
          | .error e => .error e
          | .ok r => .ok (n.text :: r)

/-- get_existing_categories (sync.py lines 552 to 572): GET the
categories endpoint accepting statuses 200 and 201; when the result is
falsy (None on an unaccepted status, or an element with no children)
return the empty list, otherwise collect find(name).text over the
category children. -/
def get_existing_categories (r : NetReply) : Except PyErr (List (Option String)) :=
  match get_resource r [200, 201] with
  | .error e => .error e
  | .ok none => .ok []
  | .ok (some doc) =>
      if pyTruthyElem doc then
        categoryNames (doc.children.filter (fun c => c.tag == "category"))
      else .ok []

/-- Lexicographic comparison of strings by code points, used to model the
sorted call of main (kernel-computable, unlike the builtin order). -/
def lexLe : List Char → List Char → Bool
  | [], _ => true
  | _ :: _, [] => false
  | c :: cs, d :: ds =>
      if c.toNat < d.toNat then true
      else if d.toNat < c.toNat then false
      else lexLe cs ds

/-- Stable insertion of a string into a sorted list (equal keys keep the
earlier element first, as Python sorted does). -/
def insertSorted (x : String) : List String → List String
  | [] => [x]
  | y :: ys => if lexLe x.data y.data then x :: y :: ys else y :: insertSorted x ys

/-- Stable sort of folder names, modelling sorted(..., key folder). -/
def sortStrings : List String → List String
  | [] => []
  | x :: xs => insertSorted x (sortStrings xs)

/-- The instance-set construction of main (sync.py lines 766 to 776) for
one artifact kind: keep a local folder iff its name is in the changed set
for the kind or update_all is set, then sort by folder path. -/
def buildInstances (folders changed : List String) (updateAll : Bool) :
    List String :=
  sortStrings (folders.filter (fun f => changed.contains f || updateAll))

/-!
Helper lemmas about the element-tree operations.  They track how the
first child with a given tag, and the count of children with a given tag,
move through each cleanup step.
-/

theorem findTag_tag_eq {cs : List XML} {tg : String} {c : XML}
    (h : findTag cs tg = some c) : c.tag = tg := by
  induction cs with
  | nil => simp [findTag] at h
  | cons d ds ih =>
    simp only [findTag] at h
    by_cases hd : d.tag == tg
    · rw [if_pos hd] at h
      cases h
      exact beq_iff_eq.1 hd
    · rw [if_neg hd] at h
      exact ih h

theorem findTag_append_ne {cs : List XML} {e : XML} {tg : String}
    (he : e.tag ≠ tg) : findTag (cs ++ [e]) tg = findTag cs tg := by
  induction cs with
  | nil =>
    simp only [List.nil_append, findTag]
    rw [if_neg (by simp [he])]
  | cons d ds ih =>
    simp only [List.cons_append, findTag]
    by_cases hd : d.tag == tg
    · rw [if_pos hd, if_pos hd]
    · rw [if_neg hd, if_neg hd]
      exact ih

theorem findTag_append_none {cs : List XML} {e : XML} {tg : String}
    (h : findTag cs tg = none) (he : e.tag = tg) :
    findTag (cs ++ [e]) tg = some e := by
  induction cs with
  | nil =>
    simp only [List.nil_append, findTag]
    rw [if_pos (by simp [he])]
  | cons d ds ih =>
    simp only [findTag] at h
    by_cases hd : d.tag == tg
    · simp [hd] at h
    · rw [if_neg hd] at h
      simp only [List.cons_append, findTag]
      rw [if_neg hd]
      exact ih h

theorem findTag_setTextFirstL_ne {cs : List XML} {a tg : String}
    {txt : Option String} (h : a ≠ tg) :
    findTag (setTextFirstL a txt cs) tg = findTag cs tg := by
  induction cs with
  | nil => rfl
  | cons d ds ih =>
    obtain ⟨dt, dx, dc⟩ := d
    simp only [setTextFirstL, XML.tag]
    by_cases hd : dt == a
    · have hda : dt = a := beq_iff_eq.1 hd
      rw [if_pos hd]
      simp only [findTag, XML.tag]
      rw [if_neg (by simp [hda, h]), if_neg (by simp [hda, h])]
    · rw [if_neg hd]
      simp only [findTag, XML.tag]
      by_cases hdt : dt == tg
      · rw [if_pos hdt, if_pos hdt]
      · rw [if_neg hdt, if_neg hdt, ih]

theorem findTag_setTextFirstL_self {cs : List XML} {tg : String}
    {txt : Option String} :
    findTag (setTextFirstL tg txt cs) tg =
      (findTag cs tg).map (fun c => XML.elem c.tag txt c.children) := by
  induction cs with
  | nil => rfl
  | cons d ds ih =>
    obtain ⟨dt, dx, dc⟩ := d
    simp only [setTextFirstL, XML.tag]
    by_cases hd : dt == tg
    · rw [if_pos hd]
      simp only [findTag, XML.tag]
      rw [if_pos hd, if_pos hd]
      rfl
    · rw [if_neg hd]
      simp only [findTag, XML.tag]
      rw [if_neg hd, if_neg hd, ih]
      rfl

theorem findTag_removeFirstL_ne {cs : List XML} {a tg : String}
    (h : a ≠ tg) : findTag (removeFirstL a cs) tg = findTag cs tg := by
  induction cs with
  | nil => rfl
  | cons d ds ih =>
    obtain ⟨dt, dx, dc⟩ := d
    simp only [removeFirstL, XML.tag]
    by_cases hd : dt == a
    · have hda : dt = a := beq_iff_eq.1 hd
      rw [if_pos hd]
      simp only [findTag, XML.tag]
      rw [if_neg (by simp [hda, h])]
    · rw [if_neg hd]
      simp only [findTag, XML.tag]
      by_cases hdt : dt == tg
      · rw [if_pos hdt, if_pos hdt]
      · rw [if_neg hdt, if_neg hdt, ih]

theorem findTag_clearFirstL_ne {cs : List XML} {a tg : String}
    (h : a ≠ tg) : findTag (clearFirstL a cs) tg = findTag cs tg := by
  induction cs with
  | nil => rfl
  | cons d ds ih =>
    obtain ⟨dt, dx, dc⟩ := d
    simp only [clearFirstL, XML.clearSelf, XML.tag]
    by_cases hd : dt == a
    · have hda : dt = a := beq_iff_eq.1 hd
      rw [if_pos hd]
      simp only [findTag, XML.tag]
      rw [if_neg (by simp [hda, h]), if_neg (by simp [hda, h])]
    · rw [if_neg hd]
      simp only [findTag, XML.tag]
      by_cases hdt : dt == tg
      · rw [if_pos hdt, if_pos hdt]
      · rw [if_neg hdt, if_neg hdt, ih]

theorem findTag_clearFirstL_self {cs : List XML} {a : String} :
    findTag (clearFirstL a cs) a = (findTag cs a).map XML.clearSelf := by
  induction cs with
  | nil => rfl
  | cons d ds ih =>
    obtain ⟨dt, dx, dc⟩ := d
    simp only [clearFirstL, XML.clearSelf, XML.tag]
    by_cases hd : dt == a
    · rw [if_pos hd]
      simp only [findTag, XML.tag]
      rw [if_pos hd, if_pos hd]
      rfl
    · rw [if_neg hd]
      simp only [findTag, XML.tag]
      rw [if_neg hd, if_neg hd, ih]

theorem hasTag_eq_isSome (cs : List XML) (tg : String) :
    hasTag cs tg = (findTag cs tg).isSome := by
  induction cs with
  | nil => rfl
  | cons d ds ih =>
    simp only [hasTag, findTag]
    by_cases hd : d.tag == tg
    · simp [hd]
    · simp [hd, ih]

theorem hasTag_clearFirstL (cs : List XML) (a tg : String) :
    hasTag (clearFirstL a cs) tg = hasTag cs tg := by
  induction cs with
  | nil => rfl
  | cons d ds ih =>
    obtain ⟨dt, dx, dc⟩ := d
    simp only [clearFirstL, XML.clearSelf, XML.tag]
    by_cases hd : dt == a
    · rw [if_pos hd]
      simp only [hasTag, XML.tag]
    · rw [if_neg hd]
      simp only [hasTag, XML.tag, ih]

theorem findTag_clearP2T_ne {cs : List XML} {a b tg : String}
    (h : a ≠ tg) : findTag (clearP2T a b cs) tg = findTag cs tg := by
  induction cs with
  | nil => rfl
  | cons d ds ih =>
    obtain ⟨dt, dx, dc⟩ := d
    simp only [clearP2T, XML.tag, XML.children]
    by_cases hd : (dt == a && hasTag dc b)
    · have hd2 := hd
      rw [Bool.and_eq_true] at hd2
      have hda : dt = a := beq_iff_eq.1 hd2.1
      rw [if_pos hd]
      simp only [findTag, XML.tag]
      rw [if_neg (by simp [hda, h]), if_neg (by simp [hda, h])]
    · rw [if_neg hd]
      simp only [findTag, XML.tag]
      by_cases hdt : dt == tg
      · rw [if_pos hdt, if_pos hdt]
      · rw [if_neg hdt, if_neg hdt, ih]

theorem findP2_clearP2T_self {cs : List XML} {a b : String} :
    findP2 a b (clearP2T a b cs) = (findP2 a b cs).map XML.clearSelf := by
  induction cs with
  | nil => rfl
  | cons d ds ih =>
    obtain ⟨dt, dx, dc⟩ := d
    simp only [clearP2T, XML.tag, XML.children]
    by_cases hd : (dt == a && hasTag dc b)
    · rw [if_pos hd]
      simp only [findP2, XML.tag, XML.children]
      rw [hasTag_clearFirstL]
      rw [if_pos hd, if_pos hd]
      exact findTag_clearFirstL_self
    · rw [if_neg hd]
      simp only [findP2, XML.tag, XML.children]
      rw [if_neg hd, if_neg hd, ih]

theorem findP2_removeFirstL_ne {cs : List XML} {a b r : String}
    (h : r ≠ a) : findP2 a b (removeFirstL r cs) = findP2 a b cs := by
  induction cs with
  | nil => rfl
  | cons d ds ih =>
    obtain ⟨dt, dx, dc⟩ := d
    simp only [removeFirstL, XML.tag]
    by_cases hd : dt == r
    · have hdr : dt = r := beq_iff_eq.1 hd
      rw [if_pos hd]
      simp only [findP2, XML.tag, XML.children]
      rw [if_neg (by simp [hdr, h])]
    · rw [if_neg hd]
      simp only [findP2, XML.tag, XML.children]
      by_cases hdt : (dt == a && hasTag dc b)
      · rw [if_pos hdt, if_pos hdt]
      · rw [if_neg hdt, if_neg hdt, ih]

theorem clearFirstL_of_none {cs : List XML} {a : String}
    (h : findTag cs a = none) : clearFirstL a cs = cs := by
  induction cs with
  | nil => rfl
  | cons d ds ih =>
    simp only [findTag] at h
    by_cases hd : d.tag == a
    · simp [hd] at h
    · rw [if_neg hd] at h
      simp only [clearFirstL]
      rw [if_neg hd, ih h]

theorem clearFirstL_of_cleared {cs : List XML} {a : String}
    (h : findTag cs a = some (XML.elem a none [])) : clearFirstL a cs = cs := by
  induction cs with
  | nil => simp [findTag] at h
  | cons d ds ih =>
    simp only [findTag] at h
    by_cases hd : d.tag == a
    · rw [if_pos hd] at h
      simp only [clearFirstL]
      rw [if_pos hd]
      have hde : d = XML.elem a none [] := by
        cases h
        rfl
      subst hde
      rfl
    · rw [if_neg hd] at h
      simp only [clearFirstL]
      rw [if_neg hd, ih h]

theorem clearP2T_of_none {cs : List XML} {a b : String}
    (h : findP2 a b cs = none) : clearP2T a b cs = cs := by
  induction cs with
  | nil => rfl
  | cons d ds ih =>
    simp only [findP2] at h
    by_cases hd : (d.tag == a && hasTag d.children b)
    · rw [if_pos hd] at h
      have hd2 := hd
      rw [Bool.and_eq_true] at hd2
      have hb := hd2.2
      rw [hasTag_eq_isSome, h] at hb
      simp at hb
    · rw [if_neg hd] at h
      simp only [clearP2T]
      rw [if_neg hd, ih h]

theorem clearP2T_of_cleared {cs : List XML} {a b : String}
    (h : findP2 a b cs = some (XML.elem b none [])) : clearP2T a b cs = cs := by
  induction cs with
  | nil => simp [findP2] at h
  | cons d ds ih =>
    obtain ⟨dt, dx, dc⟩ := d
    simp only [findP2, XML.tag, XML.children] at h
    by_cases hd : (dt == a && hasTag dc b)
    · rw [if_pos hd] at h
      simp only [clearP2T, XML.tag, XML.children]
      rw [if_pos hd, clearFirstL_of_cleared h]
      rfl
    · rw [if_neg hd] at h
      simp only [clearP2T, XML.tag, XML.children]
      rw [if_neg hd, ih h]

theorem removeFirstL_of_none {cs : List XML} {a : String}
    (h : findTag cs a = none) : removeFirstL a cs = cs := by
  induction cs with
  | nil => rfl
  | cons d ds ih =>
    simp only [findTag] at h
    by_cases hd : d.tag == a
    · simp [hd] at h
    · rw [if_neg hd] at h
      simp only [removeFirstL]
      rw [if_neg hd, ih h]

theorem countTag_append : ∀ (cs ds : List XML) (tg : String),
    countTag (cs ++ ds) tg = countTag cs tg + countTag ds tg
  | [], ds, tg => by simp [countTag]
  | c :: cs, ds, tg => by
    have ih := countTag_append cs ds tg
    simp only [List.cons_append, countTag, List.append_eq] at ih ⊢
    omega

theorem countTag_setTextFirstL (cs : List XML) (a tg : String)
    (txt : Option String) :
    countTag (setTextFirstL a txt cs) tg = countTag cs tg := by
  induction cs with
  | nil => rfl
  | cons d ds ih =>
    obtain ⟨dt, dx, dc⟩ := d
    simp only [setTextFirstL, XML.tag]
    by_cases hd : dt == a
    · rw [if_pos hd]
      simp only [countTag, XML.tag]
    · rw [if_neg hd]
      simp only [countTag, XML.tag, ih]

theorem countTag_clearFirstL (cs : List XML) (a tg : String) :
    countTag (clearFirstL a cs) tg = countTag cs tg := by
  induction cs with
  | nil => rfl
  | cons d ds ih =>
    obtain ⟨dt, dx, dc⟩ := d
    simp only [clearFirstL, XML.clearSelf, XML.tag]
    by_cases hd : dt == a
    · rw [if_pos hd]
      simp only [countTag, XML.tag]
    · rw [if_neg hd]
      simp only [countTag, XML.tag, ih]

theorem countTag_clearP2T (cs : List XML) (a b tg : String) :
    countTag (clearP2T a b cs) tg = countTag cs tg := by
  induction cs with
  | nil => rfl
  | cons d ds ih =>
    obtain ⟨dt, dx, dc⟩ := d
    simp only [clearP2T, XML.tag, XML.children]
    by_cases hd : (dt == a && hasTag dc b)
    · rw [if_pos hd]
      simp only [countTag, XML.tag]
    · rw [if_neg hd]
      simp only [countTag, XML.tag, ih]

theorem findTag_none_of_countTag_zero {cs : List XML} {tg : String}
    (h : countTag cs tg = 0) : findTag cs tg = none := by
  induction cs with
  | nil => rfl
  | cons d ds ih =>
    simp only [countTag] at h
    by_cases hd : d.tag == tg
    · rw [if_pos hd] at h
      omega
    · rw [if_neg hd] at h
      simp only [findTag]
      rw [if_neg hd]
      exact ih (by omega)

theorem findTag_removeFirstL_self {cs : List XML} {tg : String}
    (h : countTag cs tg ≤ 1) : findTag (removeFirstL tg cs) tg = none := by
  induction cs with
  | nil => rfl
  | cons d ds ih =>
    simp only [countTag] at h
    by_cases hd : d.tag == tg
    · rw [if_pos hd] at h
      simp only [removeFirstL]
      rw [if_pos hd]
      exact findTag_none_of_countTag_zero (by omega)
    · rw [if_neg hd] at h
      simp only [removeFirstL]
      rw [if_neg hd]
      simp only [findTag]
      rw [if_neg hd]
      exact ih (by omega)

theorem countTag_removeFirstL_le (cs : List XML) (a tg : String) :
    countTag (removeFirstL a cs) tg ≤ countTag cs tg := by
  induction cs with
  | nil => simp [removeFirstL]
  | cons d ds ih =>
    simp only [removeFirstL]
    by_cases hd : d.tag == a
    · rw [if_pos hd]
      simp only [countTag]
      omega
    · rw [if_neg hd]
      simp only [countTag]
      omega

/-!
Element-level consequences: how findChild moves through appendChild,
setTextFirst, removeFirst, clearXPath, and through the cleanup steps.
-/

theorem findChild_appendChild_ne (t e : XML) (tg : String) (h : e.tag ≠ tg) :
    (appendChild t e).findChild tg = t.findChild tg := by
  simp only [appendChild, XML.findChild, XML.children]
  exact findTag_append_ne h

theorem findChild_setTextFirst_ne (t : XML) (a tg : String) (txt : Option String)
    (h : a ≠ tg) : (t.setTextFirst a txt).findChild tg = t.findChild tg := by
  simp only [XML.setTextFirst, XML.findChild, XML.children]
  exact findTag_setTextFirstL_ne h

theorem findChild_setTextFirst_self (t : XML) (tg : String) (txt : Option String) :
    (t.setTextFirst tg txt).findChild tg =
      (t.findChild tg).map (fun c => XML.elem c.tag txt c.children) := by
  simp only [XML.setTextFirst, XML.findChild, XML.children]
  exact findTag_setTextFirstL_self

theorem findChild_removeFirst_ne (t : XML) (a tg : String) (h : a ≠ tg) :
    (t.removeFirst a).findChild tg = t.findChild tg := by
  simp only [XML.removeFirst, XML.findChild, XML.children]
  exact findTag_removeFirstL_ne h

theorem findChild_clearXPath_ne (t : XML) (xp : XPath) (tg : String)
    (hxp : xp = XPath.p1 "script_contents" ∨ xp = XPath.p2 "input_type" "script")
    (h1 : tg ≠ "script_contents") (h2 : tg ≠ "input_type") :
    (t.clearXPath xp).findChild tg = t.findChild tg := by
  cases hxp with
  | inl h =>
    subst h
    simp only [XML.clearXPath, XML.findChild, XML.children]
    exact findTag_clearFirstL_ne (Ne.symm h1)
  | inr h =>
    subst h
    simp only [XML.clearXPath, XML.findChild, XML.children]
    exact findTag_clearP2T_ne (Ne.symm h2)

theorem nameStep_of_absent {fn : String} {t : XML}
    (h : t.findChild "name" = none) :
    nameStep fn t = .ok (appendChild t (XML.elem "name" (some fn) [])) := by
  simp only [nameStep, h]

theorem nameStep_of_blank {fn : String} {t : XML} {n : XML}
    (h : t.findChild "name" = some n) (hb : optBlank n.text = true) :
    nameStep fn t = .error .nameError := by
  simp only [nameStep, h, hb, if_true]

theorem nameStep_of_present {fn : String} {t : XML} {n : XML}
    (h : t.findChild "name" = some n) (hb : optBlank n.text = false) :
    nameStep fn t = .ok t := by
  simp only [nameStep, h, hb]
  rfl

theorem categoryStep_of_absent {cats : List (Option String)} {t : XML}
    (h : t.findChild "category" = none) :
    categoryStep cats t = appendChild t (XML.elem "category" (some "None") []) := by
  simp only [categoryStep, h]

theorem categoryStep_of_invalid {cats : List (Option String)} {t : XML} {c : XML}
    (h : t.findChild "category" = some c)
    (hcond : (c.text != some "None" && !(cats.contains c.text)) = true) :
    categoryStep cats t = t.setTextFirst "category" (some "None") := by
  simp only [categoryStep, h, hcond, if_true]

theorem categoryStep_of_valid {cats : List (Option String)} {t : XML} {c : XML}
    (h : t.findChild "category" = some c)
    (hcond : (c.text != some "None" && !(cats.contains c.text)) = false) :
    categoryStep cats t = t := by
  simp only [categoryStep, h, hcond]
  rfl

theorem findChild_categoryStep_ne (cats : List (Option String)) (t : XML)
    (tg : String) (h : tg ≠ "category") :
    (categoryStep cats t).findChild tg = t.findChild tg := by
  cases hc : t.findChild "category" with
  | none =>
    rw [categoryStep_of_absent hc]
    exact findChild_appendChild_ne t _ tg (by simp only [XML.tag]; exact Ne.symm h)
  | some c =>
    by_cases hcond : (c.text != some "None" && !(cats.contains c.text)) = true
    · rw [categoryStep_of_invalid hc hcond]
      exact findChild_setTextFirst_ne t _ tg _ (Ne.symm h)
    · rw [categoryStep_of_valid hc (by simpa using hcond)]

theorem nameStep_findChild_ne {fn : String} {t u : XML} (tg : String)
    (h : nameStep fn t = .ok u) (htg : tg ≠ "name") :
    u.findChild tg = t.findChild tg := by
  cases hc : t.findChild "name" with
  | none =>
    rw [nameStep_of_absent hc] at h
    cases h
    exact findChild_appendChild_ne t _ tg (by simp only [XML.tag]; exact Ne.symm htg)
  | some n =>
    by_cases hb : optBlank n.text = true
    · rw [nameStep_of_blank hc hb] at h
      cases h
    · rw [nameStep_of_present hc (by simpa using hb)] at h
      cases h
      rfl

theorem nameStep_name {fn : String} {t u : XML} (h : nameStep fn t = .ok u)
    (hfn : fn ≠ "") :
    ∃ n, u.findChild "name" = some n ∧ optBlank n.text = false := by
  cases hc : t.findChild "name" with
  | none =>
    rw [nameStep_of_absent hc] at h
    cases h
    refine ⟨XML.elem "name" (some fn) [], ?_, ?_⟩
    · simp only [appendChild, XML.findChild, XML.children]
      exact findTag_append_none hc rfl
    · simp only [XML.text, optBlank]
      exact beq_eq_false_iff_ne.2 hfn
  | some n =>
    by_cases hb : optBlank n.text = true
    · rw [nameStep_of_blank hc hb] at h
      cases h
    · rw [nameStep_of_present hc (by simpa using hb)] at h
      cases h
      exact ⟨n, hc, by simpa using hb⟩

theorem categoryStep_valid (cats : List (Option String)) (t : XML) :
    ∃ c, (categoryStep cats t).findChild "category" = some c ∧
      (c.text != some "None" && !(cats.contains c.text)) = false := by
  cases hc : t.findChild "category" with
  | none =>
    refine ⟨XML.elem "category" (some "None") [], ?_, ?_⟩
    · rw [categoryStep_of_absent hc]
      simp only [appendChild, XML.findChild, XML.children]
      exact findTag_append_none hc rfl
    · simp [XML.text]
  | some c =>
    by_cases hcond : (c.text != some "None" && !(cats.contains c.text)) = true
    · refine ⟨XML.elem c.tag (some "None") c.children, ?_, ?_⟩
      · rw [categoryStep_of_invalid hc hcond, findChild_setTextFirst_self, hc]
        rfl
      · simp [XML.text]
    · rw [categoryStep_of_valid hc (by simpa using hcond)]
      exact ⟨c, hc, by simpa using hcond⟩

/-!
Cleanup-pipeline lemmas: unfolding cleanup_xml through nameStep, and
preservation of findChild, findP2 and countTag along the remaining steps.
-/

theorem cleanup_eq {fn : String} {cats : List (Option String)} {xp : XPath}
    {t u : XML} (h : nameStep fn t = .ok u) :
    cleanup_xml fn cats xp t =
      .ok ((((categoryStep cats u).clearXPath xp).removeFirst "id").removeFirst
        "filename") := by
  simp only [cleanup_xml, h]

theorem cleanup_error {fn : String} {cats : List (Option String)} {xp : XPath}
    {t : XML} {e : PyErr} (h : nameStep fn t = .error e) :
    cleanup_xml fn cats xp t = .error e := by
  simp only [cleanup_xml, h]

theorem findChild_afterCat_ne (xp : XPath) (v : XML) (tg : String)
    (hxp : xp = XPath.p1 "script_contents" ∨ xp = XPath.p2 "input_type" "script")
    (h4 : tg ≠ "script_contents") (h5 : tg ≠ "input_type")
    (h2 : tg ≠ "id") (h3 : tg ≠ "filename") :
    (((v.clearXPath xp).removeFirst "id").removeFirst "filename").findChild tg
      = v.findChild tg := by
  rw [findChild_removeFirst_ne _ _ _ (Ne.symm h3),
      findChild_removeFirst_ne _ _ _ (Ne.symm h2),
      findChild_clearXPath_ne _ _ _ hxp h4 h5]

theorem cleanup_category_absent {fn : String} {cats : List (Option String)}
    {xp : XPath} {t t' : XML}
    (hxp : xp = XPath.p1 "script_contents" ∨ xp = XPath.p2 "input_type" "script")
    (h : cleanup_xml fn cats xp t = .ok t')
    (hc : t.findChild "category" = none) :
    t'.findChild "category" = some (XML.elem "category" (some "None") []) := by
  cases hns : nameStep fn t with
  | error e =>
    rw [cleanup_error hns] at h
    cases h
  | ok u =>
    rw [cleanup_eq hns] at h
    injection h with h2
    subst h2
    have hu : u.findChild "category" = none := by
      rw [nameStep_findChild_ne "category" hns (by decide)]
      exact hc
    rw [findChild_afterCat_ne xp _ "category" hxp (by decide) (by decide)
      (by decide) (by decide)]
    rw [categoryStep_of_absent hu]
    simp only [appendChild, XML.findChild, XML.children]
    exact findTag_append_none hu rfl

theorem cleanup_category_invalid {fn : String} {cats : List (Option String)}
    {xp : XPath} {t t' c : XML}
    (hxp : xp = XPath.p1 "script_contents" ∨ xp = XPath.p2 "input_type" "script")
    (h : cleanup_xml fn cats xp t = .ok t')
    (hc : t.findChild "category" = some c)
    (hcond : (c.text != some "None" && !(cats.contains c.text)) = true) :
    t'.findChild "category" = some (XML.elem c.tag (some "None") c.children) := by
  cases hns : nameStep fn t with
  | error e =>
    rw [cleanup_error hns] at h
    cases h
  | ok u =>
    rw [cleanup_eq hns] at h
    injection h with h2
    subst h2
    have hu : u.findChild "category" = some c := by
      rw [nameStep_findChild_ne "category" hns (by decide)]
      exact hc
    rw [findChild_afterCat_ne xp _ "category" hxp (by decide) (by decide)
      (by decide) (by decide)]
    rw [categoryStep_of_invalid hu hcond, findChild_setTextFirst_self, hu]
    rfl

theorem countTag_children_appendChild_ne (t e : XML) (tg : String)
    (h : e.tag ≠ tg) :
    countTag (appendChild t e).children tg = countTag t.children tg := by
  simp only [appendChild, XML.children, countTag_append]
  simp [countTag, h]

theorem countTag_children_nameStep {fn : String} {t u : XML} (tg : String)
    (h : nameStep fn t = .ok u) (htg : tg ≠ "name") :
    countTag u.children tg = countTag t.children tg := by
  cases hc : t.findChild "name" with
  | none =>
    rw [nameStep_of_absent hc] at h
    cases h
    exact countTag_children_appendChild_ne t _ tg
      (by simp only [XML.tag]; exact Ne.symm htg)
  | some n =>
    by_cases hb : optBlank n.text = true
    · rw [nameStep_of_blank hc hb] at h
      cases h
    · rw [nameStep_of_present hc (by simpa using hb)] at h
      cases h
      rfl

theorem countTag_children_categoryStep (cats : List (Option String)) (t : XML)
    (tg : String) (htg : tg ≠ "category") :
    countTag (categoryStep cats t).children tg = countTag t.children tg := by
  cases hc : t.findChild "category" with
  | none =>
    rw [categoryStep_of_absent hc]
    exact countTag_children_appendChild_ne t _ tg
      (by simp only [XML.tag]; exact Ne.symm htg)
  | some c =>
    by_cases hcond : (c.text != some "None" && !(cats.contains c.text)) = true
    · rw [categoryStep_of_invalid hc hcond]
      simp only [XML.setTextFirst, XML.children]
      exact countTag_setTextFirstL t.children _ tg _
    · rw [categoryStep_of_valid hc (by simpa using hcond)]

theorem countTag_children_clearXPath (t : XML) (xp : XPath) (tg : String) :
    countTag (t.clearXPath xp).children tg = countTag t.children tg := by
  cases xp with
  | p1 a =>
    simp only [XML.clearXPath, XML.children]
    exact countTag_clearFirstL t.children a tg
  | p2 a b =>
    simp only [XML.clearXPath, XML.children]
    exact countTag_clearP2T t.children a b tg

theorem countTag_children_removeFirst_le (t : XML) (a tg : String) :
    countTag (t.removeFirst a).children tg ≤ countTag t.children tg := by
  simp only [XML.removeFirst, XML.children]
  exact countTag_removeFirstL_le t.children a tg

theorem findChild_removeFirst_self {t : XML} {tg : String}
    (h : countTag t.children tg ≤ 1) : (t.removeFirst tg).findChild tg = none := by
  simp only [XML.removeFirst, XML.findChild, XML.children]
  exact findTag_removeFirstL_self h

theorem removeFirst_self {t : XML} {tg : String} (h : t.findChild tg = none) :
    t.removeFirst tg = t := by
  obtain ⟨tt, tx, tc⟩ := t
  simp only [XML.removeFirst, XML.findChild, XML.children] at h ⊢
  rw [removeFirstL_of_none h]
  rfl

theorem clearXPath_self_p1 {t : XML} {a : String}
    (h : t.findChild a = none ∨ t.findChild a = some (XML.elem a none [])) :
    t.clearXPath (.p1 a) = t := by
  obtain ⟨tt, tx, tc⟩ := t
  simp only [XML.clearXPath, XML.findChild, XML.children] at h ⊢
  cases h with
  | inl h =>
    rw [clearFirstL_of_none h]
    rfl
  | inr h =>
    rw [clearFirstL_of_cleared h]
    rfl

theorem clearXPath_self_p2 {t : XML} {a b : String}
    (h : findP2 a b t.children = none ∨
      findP2 a b t.children = some (XML.elem b none [])) :
    t.clearXPath (.p2 a b) = t := by
  obtain ⟨tt, tx, tc⟩ := t
  simp only [XML.clearXPath, XML.children] at h ⊢
  cases h with
  | inl h =>
    rw [clearP2T_of_none h]
    rfl
  | inr h =>
    rw [clearP2T_of_cleared h]
    rfl

theorem findChild_clearXPath_p1_self (v : XML) (a : String) :
    (v.clearXPath (.p1 a)).findChild a = (v.findChild a).map XML.clearSelf := by
  simp only [XML.clearXPath, XML.findChild, XML.children]
  exact findTag_clearFirstL_self

theorem findP2_clearXPath_p2_self (v : XML) (a b : String) :
    findP2 a b (v.clearXPath (.p2 a b)).children =
      (findP2 a b v.children).map XML.clearSelf := by
  simp only [XML.clearXPath, XML.children]
  exact findP2_clearP2T_self

theorem findP2_children_removeFirst_ne (t : XML) (a b r : String) (h : r ≠ a) :
    findP2 a b (t.removeFirst r).children = findP2 a b t.children := by
  simp only [XML.removeFirst, XML.children]
  exact findP2_removeFirstL_ne h

theorem findP2_tag_eq {cs : List XML} {a b : String} {c : XML}
    (h : findP2 a b cs = some c) : c.tag = b := by
  induction cs with
  | nil => simp [findP2] at h
  | cons d ds ih =>
    simp only [findP2] at h
    by_cases hd : (d.tag == a && hasTag d.children b)
    · rw [if_pos hd] at h
      exact findTag_tag_eq h
    · rw [if_neg hd] at h
      exact ih h

/-- Idempotence core: when the common cleanup succeeds on a tree with at
most one id child, at most one filename child, and a nonempty folder
name, running it again on the result changes nothing. -/
theorem cleanup_idem {fn : String} {cats : List (Option String)} {xp : XPath}
    {t t1 : XML}
    (hxp : xp = XPath.p1 "script_contents" ∨ xp = XPath.p2 "input_type" "script")
    (hfn : fn ≠ "")
    (hid : countTag t.children "id" ≤ 1)
    (hfile : countTag t.children "filename" ≤ 1)
    (h : cleanup_xml fn cats xp t = .ok t1) :
    cleanup_xml fn cats xp t1 = .ok t1 := by
  cases hns : nameStep fn t with
  | error e =>
    rw [cleanup_error hns] at h
    cases h
  | ok u =>
    rw [cleanup_eq hns] at h
    injection h with h2
    subst h2
    obtain ⟨n, hnu, hnb⟩ := nameStep_name hns hfn
    obtain ⟨c1, hcv, hcvf⟩ := categoryStep_valid cats u
    set v := categoryStep cats u with hvdef
    set w := v.clearXPath xp with hwdef
    set r1 := w.removeFirst "id" with hr1def
    set t1 := r1.removeFirst "filename" with ht1def
    have hname1 : t1.findChild "name" = some n := by
      rw [ht1def, hr1def, hwdef, hvdef,
        findChild_removeFirst_ne _ _ _ (by decide),
        findChild_removeFirst_ne _ _ _ (by decide),
        findChild_clearXPath_ne _ _ _ hxp (by decide) (by decide),
        findChild_categoryStep_ne _ _ _ (by decide)]
      exact hnu
    have hcat1 : t1.findChild "category" = some c1 := by
      rw [ht1def, hr1def, hwdef,
        findChild_removeFirst_ne _ _ _ (by decide),
        findChild_removeFirst_ne _ _ _ (by decide),
        findChild_clearXPath_ne _ _ _ hxp (by decide) (by decide)]
      exact hcv
    have hcntu_id : countTag u.children "id" ≤ 1 := by
      rw [countTag_children_nameStep "id" hns (by decide)]
      exact hid
    have hcntv_id : countTag v.children "id" ≤ 1 := by
      rw [hvdef, countTag_children_categoryStep _ _ _ (by decide)]
      exact hcntu_id
    have hcntw_id : countTag w.children "id" ≤ 1 := by
      rw [hwdef, countTag_children_clearXPath]
      exact hcntv_id
    have hid1 : t1.findChild "id" = none := by
      rw [ht1def, findChild_removeFirst_ne _ _ _ (by decide), hr1def]
      exact findChild_removeFirst_self hcntw_id
    have hcntu_file : countTag u.children "filename" ≤ 1 := by
      rw [countTag_children_nameStep "filename" hns (by decide)]
      exact hfile
    have hcntv_file : countTag v.children "filename" ≤ 1 := by
      rw [hvdef, countTag_children_categoryStep _ _ _ (by decide)]
      exact hcntu_file
    have hcntw_file : countTag w.children "filename" ≤ 1 := by
      rw [hwdef, countTag_children_clearXPath]
      exact hcntv_file
    have hcntr1_file : countTag r1.children "filename" ≤ 1 :=
      le_trans (by rw [hr1def]; exact countTag_children_removeFirst_le w "id" "filename")
        hcntw_file
    have hfile1 : t1.findChild "filename" = none := by
      rw [ht1def]
      exact findChild_removeFirst_self hcntr1_file
    have hclear1 : t1.clearXPath xp = t1 := by
      cases hxp with
      | inl hx =>
        subst hx
        have hsc : t1.findChild "script_contents" =
            (v.findChild "script_contents").map XML.clearSelf := by
          rw [ht1def, hr1def,
            findChild_removeFirst_ne _ _ _ (by decide),
            findChild_removeFirst_ne _ _ _ (by decide), hwdef]
          exact findChild_clearXPath_p1_self v "script_contents"
        apply clearXPath_self_p1
        cases hvv : v.findChild "script_contents" with
        | none =>
          left
          rw [hsc, hvv]
          rfl
        | some c =>
          right
          rw [hsc, hvv]
          have hct : c.tag = "script_contents" := findTag_tag_eq hvv
          simp [XML.clearSelf, hct]
      | inr hx =>
        subst hx
        have hsc : findP2 "input_type" "script" t1.children =
            (findP2 "input_type" "script" v.children).map XML.clearSelf := by
          rw [ht1def, hr1def,
            findP2_children_removeFirst_ne _ _ _ _ (by decide),
            findP2_children_removeFirst_ne _ _ _ _ (by decide), hwdef]
          exact findP2_clearXPath_p2_self v "input_type" "script"
        apply clearXPath_self_p2
        cases hvv : findP2 "input_type" "script" v.children with
        | none =>
          left
          rw [hsc, hvv]
          rfl
        | some c =>
          right
          rw [hsc, hvv]
          have hct : c.tag = "script" := findP2_tag_eq hvv
          simp [XML.clearSelf, hct]
    rw [cleanup_eq (nameStep_of_present hname1 hnb),
      categoryStep_of_valid hcat1 hcvf, hclear1,
      removeFirst_self hid1, removeFirst_self hfile1]

theorem mem_insertSorted (a x : String) (l : List String) :
    a ∈ insertSorted x l ↔ a = x ∨ a ∈ l := by
  induction l with
  | nil => simp [insertSorted]
  | cons y ys ih =>
    simp only [insertSorted]
    by_cases h : lexLe x.data y.data = true
    · rw [if_pos h]
      simp [List.mem_cons]
    · rw [if_neg h]
      simp only [List.mem_cons, ih]
      tauto

theorem mem_sortStrings (a : String) (l : List String) :
    a ∈ sortStrings l ↔ a ∈ l := by
  induction l with
  | nil => simp [sortStrings]
  | cons x xs ih =>
    simp only [sortStrings]
    rw [mem_insertSorted]
    simp [List.mem_cons, ih]

theorem get_resource_not_contained {s : Nat} {b : XML} {resp : List Nat}
    (h : resp.contains s = false) :
    get_resource (.reply s b) resp = .ok none := by
  simp only [get_resource]
  rw [h]
  simp

/-!
Concrete sample values used in the claim theorems and witnesses.
-/

/-- An arbitrary response body for requests whose body is irrelevant. -/
def dummyBody : XML := .elem "resp" none []

/-- A put round in which every request times out. -/
def timeoutEnv : PutEnv := ⟨.timeout, .timeout, .timeout⟩

/-- A put round whose existence GET replies 200 and whose PUT replies
200 (the POST reply is present but unused on this path). -/
def okPutEnv : PutEnv :=
  ⟨.reply 200 dummyBody, .reply 200 dummyBody, .reply 201 dummyBody⟩

/-- A put round whose existence GET replies 200 and whose PUT replies
with an unexpected 409 status. -/
def badStatusEnv : PutEnv :=
  ⟨.reply 200 dummyBody, .reply 409 dummyBody, .reply 409 dummyBody⟩

/-- Round replies: the first attempt times out, later attempts succeed
with a 200. -/
def envTimeoutThen200 : Nat → PutEnv
  | 1 => timeoutEnv
  | _ => okPutEnv

/-- Local metadata of instance foo: a name, a valid category, and stale
script contents. -/
def fooLocalXml : XML := .elem "script" none
  [.elem "name" (some "foo") [], .elem "category" (some "None") [],
   .elem "script_contents" (some "old") []]

/-- The tree fooLocalXml after the common cleanup: the stale contents are
cleared, everything else survives. -/
def fooCleaned : XML := .elem "script" none
  [.elem "name" (some "foo") [], .elem "category" (some "None") [],
   .elem "script_contents" none []]

/-- The by-name URL of instance foo of the Script kind. -/
def fooUrl : String := "https://jss/JSSResource/scripts/name/foo"

/-- A parseable local metadata tree with no name element. -/
def noNameXml : XML := .elem "script" none [.elem "category" (some "None") []]

/-- A tree with a present-but-blank name and a stale category. -/
def blankNameObsoleteXml : XML := .elem "script" none
  [.elem "name" (some "") [], .elem "category" (some "Obsolete") []]

/-- A tree with a blank name element. -/
def blankNameXml : XML := .elem "script" none
  [.elem "name" (some "") [], .elem "category" (some "Software") []]

/-- Metadata of instance foo carrying the stale category Obsolete. -/
def fooObsoleteXml : XML := .elem "script" none
  [.elem "name" (some "foo") [], .elem "category" (some "Obsolete") [],
   .elem "script_contents" (some "old") []]

/-- The tree fooObsoleteXml after cleanup: category forced to None,
contents cleared. -/
def fooObsoleteCleaned : XML := .elem "script" none
  [.elem "name" (some "foo") [], .elem "category" (some "None") [],
   .elem "script_contents" none []]

/-- A tree with two id children (and a nonblank name). -/
def dupIdXml : XML := .elem "script" none
  [.elem "name" (some "x") [], .elem "id" (some "1") [],
   .elem "id" (some "2") []]

/-- dupIdXml after one cleanup: one id survives, a category was added. -/
def dupIdOnce : XML := .elem "script" none
  [.elem "name" (some "x") [], .elem "id" (some "2") [],
   .elem "category" (some "None") []]

/-- dupIdXml after two cleanups: the second id is gone as well. -/
def dupIdTwice : XML := .elem "script" none
  [.elem "name" (some "x") [], .elem "category" (some "None") []]

/-!
Claim theorems.
-/

/-- C1: the retry loop of JamfObject.put iterates attempt over
range(1, RE_TRIES), which has RE_TRIES minus 1 elements, so with the
default RE_TRIES = 3 a JSS that times out on every round gets only 2
tries, not the 3 total tries the claim states, and the instance is
reported failed; a timeout followed by a 200 reply succeeds on the second
try; a non-timeout outcome (unexpected status 409) is not retried and the
loop stops after 1 try. -/
theorem C1_put_retry_eval :
    JamfObject_put dummyBody "u" "v" (fun _ => timeoutEnv) 3 = (false, 2, [])
    ∧ JamfObject_put dummyBody "u" "v" envTimeoutThen200 3 =
        (true, 2, [.acquire, .getReq "u", .putReq "u" dummyBody, .release])
    ∧ JamfObject_put dummyBody "u" "v" (fun _ => badStatusEnv) 3 =
        (false, 1, [.acquire, .getReq "u", .putReq "u" dummyBody, .release]) :=
  ⟨rfl, rfl, rfl⟩

/-- C2: for the instance foo whose folder holds a metadata file but zero
supported-extension files, the get phase ends with the data attribute
still unset, yet main runs the put phase for it anyway: a network GET and
PUT are issued and, the JSS answering 200, the instance is reported as a
success, contradicting the claim that the put phase is skipped, recorded
as a failure, and issues no network call. -/
theorem C2_put_not_skipped :
    processItem ScriptKind "https://jss" "foo" (some fooLocalXml) .timeout
        dummyBody [] [] (fun _ => okPutEnv) 3 =
      .ok (⟨some "foo", fooCleaned, none⟩,
        (true, 1, [.acquire, .getReq fooUrl, .putReq fooUrl fooCleaned,
          .release])) := rfl

/-- C3 counterexample: for a parseable local metadata file with no name
element, JamfObject.get raises AttributeError at the line reading
self.xml.find(name).text, before normalization runs, refuting the claim
that the get phase completes without raising. -/
theorem C3_counterexample :
    JamfObject_get ScriptKind "foo" (some noNameXml) .timeout dummyBody [] [] =
      .error .attributeError := rfl

/-- C3 amended: for every artifact instance with a parseable local
metadata file whose name field is absent, the get phase raises
AttributeError while reading the name from the loaded document;
normalization (and its folder-name fallback) is never reached on this
path. -/
theorem C3_amended_get_raises (k : Kind) (folderName : String) (t : XML)
    (remoteReply : NetReply) (template : XML) (files : List SrcFile)
    (cats : List (Option String)) (h : t.findChild "name" = none) :
    JamfObject_get k folderName (some t) remoteReply template files cats =
      .error .attributeError := by
  simp only [JamfObject_get, h]

/-- Witness for the amended C3 theorem at a concrete nameless tree. -/
theorem C3_amended_witness :
    noNameXml.findChild "name" = none ∧
    JamfObject_get ScriptKind "bar" (some noNameXml) .timeout dummyBody [] [] =
      .error .attributeError :=
  ⟨rfl, C3_amended_get_raises ScriptKind "bar" noNameXml .timeout dummyBody [] []
    rfl⟩

/-- C4: on a tree whose name element is present but blank, cleanup_xml
raises NameError: the warning call on sync.py line 283 evaluates
folder.name, and folder is an undefined variable in that method, so the
name is never overwritten with the folder identifier as the claim
states. -/
theorem C4_blank_name_eval :
    cleanup_xml "folder7" [some "Software"] (.p1 "script_contents")
      blankNameXml = .error .nameError := rfl

/-- C5 counterexample: with no local metadata file and a timing-out
remote GET, JamfObject.get propagates TimeoutError instead of falling
back to the kind template, refuting the claim that a get-phase timeout
surfaces as no result. -/
theorem C5_counterexample :
    JamfObject_get ScriptKind "bar" none .timeout dummyBody [] [] =
      .error .timeoutError := rfl

/-- C5 amended: a timeout of the remote GET during the get phase is not
retried and raises TimeoutError out of the get phase (get_resource and
get_xml do not catch it); only a non-200 reply is turned into no result
and triggers the template fallback. -/
theorem C5_amended_timeout_raises (k : Kind) (folderName : String)
    (template : XML) (files : List SrcFile) (cats : List (Option String))
    (s : Nat) (b : XML) :
    (JamfObject_get k folderName none .timeout template files cats =
      .error .timeoutError)
    ∧ (s ≠ 200 → get_xml folderName (.reply s b) template =
        .ok (some folderName, template)) := by
  constructor
  · simp [JamfObject_get, get_xml, get_resource]
  · intro hs
    have hbeq : (s == 200) = false := beq_eq_false_iff_ne.2 hs
    have hcont : ([200] : List Nat).contains s = false := by
      simp [List.contains, List.elem, hbeq]
    simp [get_xml, get_resource_not_contained hcont]

/-- Witness for the amended C5 theorem: a timeout raises, a 404 falls
back to the template. -/
theorem C5_amended_witness :
    (404 ≠ 200) ∧
    (JamfObject_get ScriptKind "bar" none .timeout dummyBody [] [] =
      .error .timeoutError) ∧
    get_xml "bar" (.reply 404 dummyBody) dummyBody = .ok (some "bar", dummyBody) :=
  ⟨by decide,
   (C5_amended_timeout_raises ScriptKind "bar" dummyBody [] [] 404 dummyBody).1,
   (C5_amended_timeout_raises ScriptKind "bar" dummyBody [] [] 404 dummyBody).2
     (by decide)⟩

/-- C6: put_resource acquires the semaphore once and, under one timeout,
GETs the by-name URL produced by resource_url; exactly when that GET
returns 200 the document is PUT to the by-name URL, otherwise it is
POSTed to the id-0 creation URL new_url; the status of the final response
is returned. -/
theorem C6_upsert_routing (x : XML) (base res nm u : String)
    (hu : resource_url base res (some nm) = some u)
    (env : PutEnv) (g : Nat) (gb : XML) (hg : env.getReply = .reply g gb) :
    (∀ w wb, g = 200 → env.putReply = .reply w wb →
      put_resource x u (new_url base res) env =
        .ok (w, [.acquire, .getReq u, .putReq u x, .release]))
    ∧ (∀ w wb, g ≠ 200 → env.postReply = .reply w wb →
      put_resource x u (new_url base res) env =
        .ok (w, [.acquire, .getReq u, .postReq (new_url base res) x,
          .release])) := by
  constructor
  · intro w wb h200 hput
    subst h200
    simp [put_resource, hg, hput]
  · intro w wb hne hpost
    simp [put_resource, hg, hpost, hne]

/-- Witness for C6 at a concrete environment: a 200 existence GET routes
to PUT on the by-name URL. -/
theorem C6_upsert_routing_witness :
    put_resource dummyBody fooUrl (new_url "https://jss" "scripts") okPutEnv =
      .ok (200, [.acquire, .getReq fooUrl, .putReq fooUrl dummyBody,
        .release]) :=
  (C6_upsert_routing dummyBody "https://jss" "scripts" "foo" fooUrl rfl okPutEnv
    200 dummyBody rfl).1 200 dummyBody rfl rfl

/-- C7 counterexample: on a tree whose name is present but blank and
whose category is the stale Obsolete, normalization raises NameError (the
C4 slip) before the category handling runs, so normalization does not
make the category valid for every metadata tree as the claim states. -/
theorem C7_counterexample :
    cleanup_xml "foo" [some "Software", some "Security"]
      (.p1 "script_contents") blankNameObsoleteXml = .error .nameError := rfl

/-- C7 amended: for every metadata tree on which normalization completes
(that is, whose name field is not present-and-empty), the category field
is made valid: an absent category is inserted with the literal None, and
a present category whose value is neither None nor in the fetched
category set is overwritten with None, keeping its tag and children. -/
theorem C7_amended_category_normalization (fn : String)
    (cats : List (Option String)) (xp : XPath) (t t' : XML)
    (hxp : xp = ScriptKind.data_xpath ∨ xp = EAKind.data_xpath)
    (h : cleanup_xml fn cats xp t = .ok t') :
    (t.findChild "category" = none →
      t'.findChild "category" = some (.elem "category" (some "None") []))
    ∧ (∀ c, t.findChild "category" = some c →
        (c.text != some "None" && !(cats.contains c.text)) = true →
        t'.findChild "category" =
          some (.elem c.tag (some "None") c.children)) := by
  have hxp2 : xp = XPath.p1 "script_contents" ∨
      xp = XPath.p2 "input_type" "script" := hxp
  constructor
  · intro hc
    exact cleanup_category_absent hxp2 h hc
  · intro c hc hcond
    exact cleanup_category_invalid hxp2 h hc hcond

/-- Witness for the amended C7 theorem: the Obsolete scenario with the
category set Software, Security normalizes to None. -/
theorem C7_amended_witness :
    (cleanup_xml "foo" [some "Software", some "Security"]
        (.p1 "script_contents") fooObsoleteXml = .ok fooObsoleteCleaned) ∧
    fooObsoleteCleaned.findChild "category" =
      some (.elem "category" (some "None") []) :=
  ⟨rfl,
   (C7_amended_category_normalization "foo" [some "Software", some "Security"]
      (.p1 "script_contents") fooObsoleteXml fooObsoleteCleaned (Or.inl rfl)
      rfl).2 (.elem "category" (some "Obsolete") []) rfl rfl⟩

/-- C8 counterexample: on a tree with two id children, one cleanup leaves
one id behind and a second cleanup removes it, so applying normalization
twice does not yield the same tree as applying it once even though the
first application succeeds. -/
theorem C8_counterexample :
    cleanup_xml "x" [] (.p1 "script_contents") dupIdXml = .ok dupIdOnce ∧
    cleanup_xml "x" [] (.p1 "script_contents") dupIdOnce = .ok dupIdTwice ∧
    dupIdOnce ≠ dupIdTwice := by
  refine ⟨rfl, rfl, ?_⟩
  intro h
  exact absurd (congrArg (fun t => t.children.length) h) (by decide)

/-- C8 amended: normalization is idempotent on every instance on which
one application succeeds, provided the tree carries at most one id child
and at most one filename child and the folder name is nonempty (the
duplicate-id counterexample is excluded). -/
theorem C8_amended_idempotent (fn : String) (cats : List (Option String))
    (xp : XPath) (t t1 : XML)
    (hxp : xp = ScriptKind.data_xpath ∨ xp = EAKind.data_xpath)
    (hfn : fn ≠ "")
    (hid : countTag t.children "id" ≤ 1)
    (hfile : countTag t.children "filename" ≤ 1)
    (h : cleanup_xml fn cats xp t = .ok t1) :
    cleanup_xml fn cats xp t1 = .ok t1 :=
  cleanup_idem hxp hfn hid hfile h

/-- Witness for the amended C8 theorem at a concrete instance. -/
theorem C8_amended_witness :
    cleanup_xml "foo" [] ScriptKind.data_xpath fooLocalXml = .ok fooCleaned ∧
    cleanup_xml "foo" [] ScriptKind.data_xpath fooCleaned = .ok fooCleaned :=
  ⟨rfl,
   C8_amended_idempotent "foo" [] ScriptKind.data_xpath fooLocalXml fooCleaned
     (Or.inl rfl) (by decide) (by decide) (by decide) rfl⟩

/-- C9: main constructs and processes a local folder exactly when its
identifier is in the changed set for its kind or update-all is active;
in the scenario with changed scripts bar, update-all off and folders bar
and baz, only bar is kept. -/
theorem C9_instance_selection :
    (∀ (f : String) (folders changed : List String) (updateAll : Bool),
      f ∈ buildInstances folders changed updateAll ↔
        f ∈ folders ∧ (f ∈ changed ∨ updateAll = true))
    ∧ buildInstances ["bar", "baz"] ["bar"] false = ["bar"] := by
  constructor
  · intro f folders changed ua
    unfold buildInstances
    rw [mem_sortStrings, List.mem_filter]
    simp
  · rfl

/-- Witness for C9: bar is selected in the scenario. -/
theorem C9_instance_selection_witness :
    "bar" ∈ buildInstances ["bar", "baz"] ["bar"] false :=
  (C9_instance_selection.1 "bar" ["bar", "baz"] ["bar"] false).mpr (by decide)

/-- C10: a categories GET answered with a status outside 200 and 201, or
with a document holding no category entries, makes
get_existing_categories return the empty list without failing, and with
the empty category list normalization overwrites every present category
value other than the literal None with None. -/
theorem C10_categories_empty_fallback :
    (∀ (s : Nat) (b : XML), [200, 201].contains s = false →
      get_existing_categories (.reply s b) = .ok [])
    ∧ (∀ b : XML, b.children.filter (fun c => c.tag == "category") = [] →
      get_existing_categories (.reply 200 b) = .ok [])
    ∧ (∀ (fn : String) (xp : XPath) (t t' c : XML),
        (xp = ScriptKind.data_xpath ∨ xp = EAKind.data_xpath) →
        cleanup_xml fn [] xp t = .ok t' →
        t.findChild "category" = some c → c.text ≠ some "None" →
        t'.findChild "category" =
          some (.elem c.tag (some "None") c.children)) := by
  refine ⟨?_, ?_, ?_⟩
  · intro s b hs
    simp [get_existing_categories, get_resource_not_contained hs]
  · intro b hb
    by_cases hc : pyTruthyElem b = true
    · simp [get_existing_categories, get_resource, hc, hb, categoryNames]
    · simp [get_existing_categories, get_resource, hc]
  · intro fn xp t t' c hxp h hc hct
    exact cleanup_category_invalid hxp h hc
      (by simp [bne_iff_ne, hct, List.contains])

/-- Witness for C10: a 500 reply and an empty document both give the
empty category list, and under the empty list the category Obsolete is
overwritten with None. -/
theorem C10_witness :
    ([200, 201].contains 500 = false) ∧
    (get_existing_categories (.reply 500 dummyBody) = .ok []) ∧
    (get_existing_categories (.reply 200 (.elem "categories" none [])) =
      .ok []) ∧
    fooObsoleteCleaned.findChild "category" =
      some (.elem "category" (some "None") []) :=
  ⟨by decide,
   C10_categories_empty_fallback.1 500 dummyBody (by decide),
   C10_categories_empty_fallback.2.1 (.elem "categories" none []) rfl,
   C10_categories_empty_fallback.2.2 "foo" (.p1 "script_contents")
     fooObsoleteXml fooObsoleteCleaned (.elem "category" (some "Obsolete") [])
     (Or.inl rfl) rfl rfl (by decide)⟩
